import Mathlib

/-!
Shallow embedding of the `stringest` record-ingestion engine
(`src/stringest/message.py`, `src/stringest/schema.py`,
`src/stringest/steps/base.py`) and proofs about its field pipeline,
diagnostic algebra and chunk orchestration.
-/

namespace Stringest

/-- The four message statuses of `message.Message.status`
(`Literal["ERROR", "INFO", "WARNING", "INTERNAL_ERROR"]`). -/
inductive Status where
  | ERROR
  | INFO
  | WARNING
  | INTERNAL_ERROR
deriving DecidableEq, Repr

/-- Model of `message.Message`: a frozen dataclass with a `status` and a
`content` string; equality and hashing are structural. -/
structure Message where
  status : Status
  content : String
deriving DecidableEq, Repr

/-- Model of `Message.is_error`: true for `ERROR` and `INTERNAL_ERROR`. -/
def Message.is_error (m : Message) : Bool :=
  m.status = Status.INTERNAL_ERROR ∨ m.status = Status.ERROR

/-- Model of `Message.downgrade`: ERROR becomes WARNING, WARNING becomes
INFO, everything else (INFO, INTERNAL_ERROR) is returned unchanged. -/
def Message.downgrade (m : Message) : Message :=
  if m.status = Status.ERROR then ⟨Status.WARNING, m.content⟩
  else if m.status = Status.WARNING then ⟨Status.INFO, m.content⟩
  else m

/-- Model of `Message.upgrade`: INFO becomes WARNING, WARNING becomes
ERROR, everything else (ERROR, INTERNAL_ERROR) is returned unchanged. -/
def Message.upgrade (m : Message) : Message :=
  if m.status = Status.INFO then ⟨Status.WARNING, m.content⟩
  else if m.status = Status.WARNING then ⟨Status.ERROR, m.content⟩
  else m

/-- The values flowing through step pipelines (`type_aliases.Value = Any`):
the inputs the engine actually feeds to fields are nullable strings, plus
integers for the `record_index` / `record_number` specials. -/
inductive Value where
  | none
  | str (s : String)
  | int (n : Int)
deriving DecidableEq, Repr

/-- The outcome of calling a step's `apply` on one value: either a normal
return `(new_value, success, optional message)` or an unexpected Python
exception, carried here as its `repr` string. -/
inductive StepOutcome where
  | ok (value : Value) (success : Bool) (message : Option Message)
  | exn (err : String)

/-- Model of `steps.base.AbstractStep`: a named unit with an
`apply(value) -> (value, success, Optional[Message])` method.  The `type`
and `parameters` attributes are documentation-only and are not modelled. -/
structure Step where
  name : String
  apply : Value → StepOutcome

/-- The source of a field's inbound value (`Field.name` in `schema.py`):
an inbound column name, a `Constant`, or one of the three `Special`
value types. -/
inductive FieldSource where
  | column (name : String)
  | constant (value : Value)
  | fileName
  | recordIndex
  | recordNumber

/-- Model of `schema.Field`: one output column's pipeline and policy flags.
The constructor invariants (`mandatory` and `nullable` mutually exclusive,
`outbound_name` defaulting) are construction-time checks; the behavioural
fields are carried directly. -/
structure Field where
  source : FieldSource
  outbound_name : String
  steps : List Step
  mandatory : Bool
  nullable : Bool
  fail_on_error : Bool

/-- Python `str.strip()`: drop leading and trailing whitespace characters,
modelled on the character list. -/
def pyStrip (s : String) : String :=
  String.mk
    (((s.data.dropWhile Char.isWhitespace).reverse.dropWhile
        Char.isWhitespace).reverse)

/-- Lines 206-210 of `Field.ingest`: a string input is stripped of
surrounding whitespace and replaced by `None` when the result is empty;
non-string inputs pass through untouched. -/
def Field.normalizeInput : Value → Value
  | Value.str s => if pyStrip s = "" then Value.none else Value.str (pyStrip s)
  | v => v

/-- The step loop of `Field.ingest` (lines 229-258): each step is applied
to the current value; an exception becomes an INTERNAL_ERROR message and a
null value; on failure a missing message is synthesized, the loop breaks
with `field_success = False` when `fail_on_error` is set or the message is
an INTERNAL_ERROR, and otherwise an ERROR message is downgraded and the
loop continues.  Any non-`None` message is added to the set. -/
def Field.runSteps (f : Field) :
    List Step → Value → Bool → Finset Message → Value × Bool × Finset Message
  | [], value, field_success, messages => (value, field_success, messages)
  | step :: rest, value, field_success, messages =>
    let applied : Value × Bool × Option Message :=
      match step.apply value with
      | StepOutcome.ok v s m => (v, s, m)
      | StepOutcome.exn err =>
          (Value.none, false,
            some ⟨Status.INTERNAL_ERROR,
                  "Unexpected error in " ++ step.name ++ ": " ++ err⟩)
    if applied.2.1 = true then
      match applied.2.2 with
      | some m => f.runSteps rest applied.1 field_success (insert m messages)
      | Option.none => f.runSteps rest applied.1 field_success messages
    else
      let message :=
        applied.2.2.getD ⟨Status.ERROR, step.name ++ " reported failure"⟩
      if f.fail_on_error = true ∨ message.status = Status.INTERNAL_ERROR then
        (applied.1, false, insert message messages)
      else
        let message :=
          if message.status = Status.ERROR then message.downgrade else message
        f.runSteps rest applied.1 field_success (insert message messages)

/-- Lines 260-271 of `Field.ingest`: after the loop, a null value in a
non-nullable field that has not already failed records one extra ERROR
message and marks the field failed. -/
def Field.finalize (f : Field) (r : Value × Bool × Finset Message) :
    Value × Bool × Finset Message :=
  if r.1 = Value.none ∧ f.nullable = false then
    if r.2.1 = true then
      (r.1, false,
       insert ⟨Status.ERROR, "Null value in non-nullable field after ingestion"⟩
         r.2.2)
    else (r.1, r.2.1, r.2.2)
  else (r.1, r.2.1, r.2.2)

/-- Model of `Field.ingest` (lines 202-271): normalize the input, reject a null in
a mandatory field before any step runs, then run the step loop and the
final nullability check. -/
def Field.ingest (f : Field) (value : Value) : Value × Bool × Finset Message :=
  let value := Field.normalizeInput value
  if value = Value.none ∧ f.mandatory = true then
    (Value.none, false,
     ({⟨Status.ERROR, "Null value received in mandatory field"⟩} : Finset Message))
  else
    f.finalize (f.runSteps f.steps value true ∅)

/-- Model of `schema.Schema`: an ordered list of fields (the construction-time
uniqueness check on outbound names is not needed by the claims). -/
structure Schema where
  fields : List Field

/-- Python `dict` lookup (`record.get(key)`): first matching key wins;
assoc lists built with `dictSet` keep keys unique, as dicts do. -/
def recordGet : List (String × Value) → String → Option Value
  | [], _ => Option.none
  | (k, v) :: rest, key => if k = key then some v else recordGet rest key

/-- Python `dict` assignment `d[key] = val`: overwrite in place if the key
is present, else append, preserving insertion order. -/
def dictSet {κ α : Type} [DecidableEq κ] :
    List (κ × α) → κ → α → List (κ × α)
  | [], key, val => [(key, val)]
  | (k, v) :: rest, key, val =>
      if k = key then (k, val) :: rest else (k, v) :: dictSet rest key val

/-- Resolution of a field's inbound value in `Schema._apply_to_record`
(lines 315-340): column lookup with null default, a constant's value, or
a special derived from the file name / record index. -/
def inboundValueFor (record : List (String × Value)) (file_name : Option String)
    (record_index : Nat) : FieldSource → Value
  | FieldSource.column name => (recordGet record name).getD Value.none
  | FieldSource.constant v => v
  | FieldSource.fileName =>
      match file_name with
      | some s => Value.str s
      | Option.none => Value.none
  | FieldSource.recordIndex => Value.int record_index
  | FieldSource.recordNumber => Value.int (record_index + 1)

/-- Model of `Schema._apply_to_record` (lines 304-348): ingest every field in
order, building the outbound record, AND-ing the successes and unioning
the message sets. -/
def Schema.applyToRecord (sch : Schema) (file_name : Option String)
    (indexed_record : Nat × List (String × Value)) :
    Nat × List (String × Value) × Bool × Finset Message :=
  (indexed_record.1,
   sch.fields.foldl
     (fun acc field =>
       let inbound :=
         inboundValueFor indexed_record.2 file_name indexed_record.1 field.source
       let r := field.ingest inbound
       (dictSet acc.1 field.outbound_name r.1, acc.2.1 && r.2.1, acc.2.2 ∪ r.2.2))
     (([] : List (String × Value)), true, (∅ : Finset Message)))

/-- One iteration of the result-collection loop of `Schema.process_chunk`
(lines 394-399): successful records are appended to the batch and
`all_messages[index] = messages` runs for every record. -/
def collectStep
    (acc : List (List (String × Value)) × List (Nat × Finset Message))
    (r : Nat × List (String × Value) × Bool × Finset Message) :
    List (List (String × Value)) × List (Nat × Finset Message) :=
  ((if r.2.2.1 = true then acc.1 ++ [r.2.1] else acc.1),
   dictSet acc.2 r.1 r.2.2.2)

/-- The result-collection loop of `Schema.process_chunk` over the mapped
records. -/
def collectResults
    (results : List (Nat × List (String × Value) × Bool × Finset Message)) :
    List (List (String × Value)) × List (Nat × Finset Message) :=
  results.foldl collectStep ([], [])

/-- Splitting a list into chunks of size `n + 1`, front to back. -/
def chunksGo {α : Type} (n : Nat) : List α → List (List α)
  | [] => []
  | x :: xs => (x :: xs.take n) :: chunksGo n (xs.drop n)
termination_by l => l.length
decreasing_by
  simp only [List.length_drop, List.length_cons]
  omega

/-- Model of `multiprocessing.Pool.imap(func, iterable, chunksize)`: the
iterable is dispatched to workers in chunks of `chunksize` and the results
are yielded in the input order regardless of which worker computed them. -/
def imapOrdered {α β : Type} (f : α → β) (chunksize : Nat) (xs : List α) :
    List β :=
  ((chunksGo (chunksize - 1) xs).map (List.map f)).flatten

/-- Model of `Schema.process_chunk` (lines 350-404): worker count 1 maps the
record function sequentially; a negative worker count raises `ValueError`
before any record is touched; otherwise the records go through the process
pool's ordered `imap`.  (With worker count 0 the pool size is derived from
the machine's CPU count, which does not affect the functional result.) -/
def Schema.process_chunk (sch : Schema)
    (indexed_records : List (Nat × List (String × Value)))
    (file_name : Option String) (n_processes : Int) (mp_chunk_size : Nat) :
    Except String
      (List (List (String × Value)) × List (Nat × Finset Message)) :=
  if n_processes = 1 then
    Except.ok (collectResults (indexed_records.map (sch.applyToRecord file_name)))
  else if n_processes < 0 then
    Except.error "`n_processes` must be `0` or a positive int"
  else
    Except.ok
      (collectResults
        (imapOrdered (sch.applyToRecord file_name) mp_chunk_size indexed_records))

/-- A step that fails with a plain ERROR message and a nulled value. -/
def exFailStep : Step :=
  ⟨"FailStep",
   fun _ => StepOutcome.ok Value.none false (some ⟨Status.ERROR, "bad value"⟩)⟩

/-- A step that fails with a WARNING message, keeping its input value. -/
def exWarnStep : Step :=
  ⟨"WarnStep",
   fun v => StepOutcome.ok v false (some ⟨Status.WARNING, "suspicious value"⟩)⟩

/-- A step whose `apply` raises an unexpected exception. -/
def exRaiseStep : Step := ⟨"RaiseStep", fun _ => StepOutcome.exn "boom"⟩

/-- An optional, nullable field in continuing mode. -/
def exFieldC : Field := ⟨FieldSource.column "a", "a", [], false, true, false⟩

/-- An optional, nullable field with `fail_on_error = true`. -/
def exFieldF : Field := ⟨FieldSource.column "a", "a", [], false, true, true⟩

/-- An optional non-nullable field with no steps. -/
def exFieldNN : Field := ⟨FieldSource.column "a", "a", [], false, false, false⟩

/-- A mandatory (hence non-nullable) field with a step. -/
def exFieldM : Field :=
  ⟨FieldSource.column "a", "a", [exFailStep], true, false, false⟩

/-- A one-field schema reading column `a` with no steps. -/
def exSchema : Schema := ⟨[exFieldC]⟩

/-- A triple whose success flag is already `false` passes through the final
nullability check unchanged (lines 260-271 only act when
`field_success is True`). -/
theorem Field.finalize_failed (f : Field) (v : Value) (ms : Finset Message) :
    f.finalize (v, false, ms) = (v, false, ms) := by
  unfold Field.finalize
  split
  · simp
  · rfl

/-- Flattening the chunks of a list gives the list back. -/
theorem chunksGo_flatten {α : Type} (n : Nat) :
    ∀ l : List α, (chunksGo n l).flatten = l
  | [] => by simp [chunksGo]
  | x :: xs => by
      rw [chunksGo, List.flatten_cons, chunksGo_flatten n (xs.drop n)]
      simp [List.take_append_drop]
termination_by l => l.length
decreasing_by
  simp only [List.length_drop, List.length_cons]
  omega

/-- Chunked, order-preserving dispatch of a pure function agrees with the
plain sequential map, for every chunk size. -/
theorem imapOrdered_eq_map {α β : Type} (f : α → β) (c : Nat) (xs : List α) :
    imapOrdered f c xs = xs.map f := by
  unfold imapOrdered
  rw [← List.map_flatten, chunksGo_flatten]

/-- C7: `downgrade (downgrade Error)` has severity Info, `upgrade (upgrade
Info)` has severity Error, both operations leave an InternalError message
unchanged, and both preserve the message text.  Totality ("never fail") is
inherent: both are plain total functions on `Message`. -/
theorem C7_diagnostic_algebra (m : Message) :
    (m.status = Status.ERROR → m.downgrade.downgrade = ⟨Status.INFO, m.content⟩) ∧
    (m.status = Status.INFO → m.upgrade.upgrade = ⟨Status.ERROR, m.content⟩) ∧
    (m.status = Status.INTERNAL_ERROR → m.downgrade = m ∧ m.upgrade = m) ∧
    m.downgrade.content = m.content ∧ m.upgrade.content = m.content := by
  obtain ⟨st, c⟩ := m
  cases st <;> simp [Message.downgrade, Message.upgrade]

/-- Witness for C7 at concrete messages. -/
theorem C7_diagnostic_algebra_witness :
    (Message.mk Status.ERROR "x").downgrade.downgrade = ⟨Status.INFO, "x"⟩ ∧
    (Message.mk Status.INFO "x").upgrade.upgrade = ⟨Status.ERROR, "x"⟩ ∧
    (Message.mk Status.INTERNAL_ERROR "x").downgrade = ⟨Status.INTERNAL_ERROR, "x"⟩ :=
  ⟨(C7_diagnostic_algebra ⟨Status.ERROR, "x"⟩).1 rfl,
   (C7_diagnostic_algebra ⟨Status.INFO, "x"⟩).2.1 rfl,
   ((C7_diagnostic_algebra ⟨Status.INTERNAL_ERROR, "x"⟩).2.2.1 rfl).1⟩

/-- C10: a negative `n_processes` makes `process_chunk` raise the
`ValueError` before touching any record: the result is the bare error,
with no output batch and no diagnostics map. -/
theorem C10_negative_worker_count (sch : Schema)
    (recs : List (Nat × List (String × Value))) (file_name : Option String)
    (n : Int) (c : Nat) (hn : n < 0) :
    sch.process_chunk recs file_name n c =
      Except.error "`n_processes` must be `0` or a positive int" := by
  unfold Schema.process_chunk
  have h1 : ¬(n = 1) := by omega
  simp [h1, hn]

/-- Witness for C10 at `n_processes = -1`. -/
theorem C10_negative_worker_count_witness :
    (-1 : Int) < 0 ∧
    exSchema.process_chunk [(0, [("a", Value.str "x")])] Option.none (-1) 50 =
      Except.error "`n_processes` must be `0` or a positive int" :=
  ⟨by decide,
   C10_negative_worker_count exSchema [(0, [("a", Value.str "x")])] Option.none
     (-1) 50 (by decide)⟩

/-- C8: for every schema and chunk of indexed records, the parallel path
(worker count above 1, records dispatched through the pool's ordered
`imap` in chunks of `mp_chunk_size`) returns exactly the sequential
(worker count 1) result: same successful-record batch in original order
and same diagnostics map. -/
theorem C8_parallel_eq_sequential (sch : Schema)
    (recs : List (Nat × List (String × Value))) (file_name : Option String)
    (n : Int) (c : Nat) (hn : 1 < n) (hc : 0 < c) :
    sch.process_chunk recs file_name n c =
      sch.process_chunk recs file_name 1 c := by
  unfold Schema.process_chunk
  have h1 : ¬(n = 1) := by omega
  have h2 : ¬(n < 0) := by omega
  simp [h1, h2, imapOrdered_eq_map]

/-- Witness for C8: two workers and chunk size 1 on a two-record chunk. -/
theorem C8_parallel_eq_sequential_witness :
    (1 : Int) < 2 ∧ 0 < 1 ∧
    exSchema.process_chunk
        [(0, [("a", Value.str "x")]), (1, [("a", Value.str "y")])]
        Option.none 2 1 =
      exSchema.process_chunk
        [(0, [("a", Value.str "x")]), (1, [("a", Value.str "y")])]
        Option.none 1 1 :=
  ⟨by decide, by decide,
   C8_parallel_eq_sequential exSchema
     [(0, [("a", Value.str "x")]), (1, [("a", Value.str "y")])]
     Option.none 2 1 (by decide) (by decide)⟩

/-- C1: in continuing mode (`fail_on_error = false`), a step that returns
`success = false` with an ERROR (non-internal) message has that message
downgraded to WARNING before it is recorded, and the loop continues at the
next step with the value the failing step returned (which may be null).
The loop state `(value, field_success, messages)` is arbitrary, so this
covers the failing step at any position of the pipeline. -/
theorem C1_continue_downgrades_error (f : Field) (s : Step) (rest : List Step)
    (v v' : Value) (m : Message) (fs : Bool) (ms : Finset Message)
    (hfoe : f.fail_on_error = false)
    (happ : s.apply v = StepOutcome.ok v' false (some m))
    (hm : m.status = Status.ERROR) :
    f.runSteps (s :: rest) v fs ms =
      f.runSteps rest v' fs (insert m.downgrade ms) ∧
    m.downgrade = ⟨Status.WARNING, m.content⟩ := by
  constructor
  · simp [Field.runSteps, happ, hfoe, hm]
  · simp [Message.downgrade, hm]

/-- Witness for C1: a failing ERROR step in a continuing field. -/
theorem C1_continue_downgrades_error_witness :
    exFieldC.fail_on_error = false ∧
    exFailStep.apply (Value.str "x") =
      StepOutcome.ok Value.none false (some ⟨Status.ERROR, "bad value"⟩) ∧
    (exFieldC.runSteps [exFailStep] (Value.str "x") true ∅ =
       exFieldC.runSteps [] Value.none true
         (insert (Message.mk Status.ERROR "bad value").downgrade ∅) ∧
     (Message.mk Status.ERROR "bad value").downgrade =
       ⟨Status.WARNING, "bad value"⟩) :=
  ⟨rfl, rfl,
   C1_continue_downgrades_error exFieldC exFailStep [] (Value.str "x")
     Value.none ⟨Status.ERROR, "bad value"⟩ true ∅ rfl rfl rfl⟩

/-- C2: when a step returns `success = false` and either `fail_on_error`
is set or the obtained-or-synthesized message is an INTERNAL_ERROR, the
loop stops at that step — the remaining steps are discarded — with
success `false` and the message recorded undowngraded; the final
nullability check then leaves the failed triple unchanged, so
`Field.ingest` returns `success = false`. -/
theorem C2_stop_on_error (f : Field) (s : Step) (rest : List Step)
    (v v' : Value) (mOpt : Option Message) (fs : Bool) (ms : Finset Message)
    (happ : s.apply v = StepOutcome.ok v' false mOpt)
    (hstop : f.fail_on_error = true ∨
      (mOpt.getD ⟨Status.ERROR, s.name ++ " reported failure"⟩).status =
        Status.INTERNAL_ERROR) :
    f.runSteps (s :: rest) v fs ms =
      (v', false,
       insert (mOpt.getD ⟨Status.ERROR, s.name ++ " reported failure"⟩) ms) ∧
    f.finalize
        (v', false,
         insert (mOpt.getD ⟨Status.ERROR, s.name ++ " reported failure"⟩) ms) =
      (v', false,
       insert (mOpt.getD ⟨Status.ERROR, s.name ++ " reported failure"⟩) ms) := by
  refine ⟨?_, Field.finalize_failed f v' _⟩
  rcases mOpt with _ | m
  · rcases hstop with h | h
    · simp [Field.runSteps, happ, h]
    · simp at h
  · rcases hstop with h | h
    · simp [Field.runSteps, happ, h]
    · have h' : m.status = Status.INTERNAL_ERROR := by simpa using h
      simp [Field.runSteps, happ, h']

/-- Witness for C2: a failing ERROR step in a `fail_on_error` field, with
a later step that would run if the loop did not stop. -/
theorem C2_stop_on_error_witness :
    exFailStep.apply (Value.str "x") =
      StepOutcome.ok Value.none false (some ⟨Status.ERROR, "bad value"⟩) ∧
    exFieldF.fail_on_error = true ∧
    exFieldF.runSteps [exFailStep, exWarnStep] (Value.str "x") true ∅ =
      (Value.none, false, insert (Message.mk Status.ERROR "bad value") ∅) :=
  ⟨rfl, rfl,
   (C2_stop_on_error exFieldF exFailStep [exWarnStep] (Value.str "x")
     Value.none (some ⟨Status.ERROR, "bad value"⟩) true ∅ rfl (Or.inl rfl)).1⟩

/-- C3: an unexpected exception from a step's `apply` is caught — in the
embedding the `exn` outcome is consumed, never re-raised — and turned
into a single INTERNAL_ERROR message whose text names the failing step;
the loop stops there with success `false` for every field, whatever its
`fail_on_error` flag, and the final nullability check keeps the failure,
so `Field.ingest` returns `success = false`. -/
theorem C3_exception_becomes_internal_error (f : Field) (s : Step)
    (rest : List Step) (v : Value) (err : String) (fs : Bool)
    (ms : Finset Message)
    (happ : s.apply v = StepOutcome.exn err) :
    f.runSteps (s :: rest) v fs ms =
      (Value.none, false,
       insert
         ⟨Status.INTERNAL_ERROR, "Unexpected error in " ++ s.name ++ ": " ++ err⟩
         ms) ∧
    f.finalize
        (Value.none, false,
         insert
           ⟨Status.INTERNAL_ERROR, "Unexpected error in " ++ s.name ++ ": " ++ err⟩
           ms) =
      (Value.none, false,
       insert
         ⟨Status.INTERNAL_ERROR, "Unexpected error in " ++ s.name ++ ": " ++ err⟩
         ms) := by
  refine ⟨?_, Field.finalize_failed f Value.none _⟩
  simp [Field.runSteps, happ]

/-- Witness for C3: a raising step inside a continuing field. -/
theorem C3_exception_becomes_internal_error_witness :
    exRaiseStep.apply (Value.str "x") = StepOutcome.exn "boom" ∧
    exFieldC.runSteps [exRaiseStep, exWarnStep] (Value.str "x") true ∅ =
      (Value.none, false,
       insert
         (Message.mk Status.INTERNAL_ERROR "Unexpected error in RaiseStep: boom")
         ∅) :=
  ⟨rfl,
   (C3_exception_becomes_internal_error exFieldC exRaiseStep [exWarnStep]
     (Value.str "x") "boom" true ∅ rfl).1⟩

/-- C9: in continuing mode, a step that fails with a WARNING or INFO
message has the message recorded unchanged (only ERROR messages are
downgraded) and the loop continues with `field_success` untouched; if the
pipeline ends there with a non-null value or a nullable field, the final
check keeps success `true`. -/
theorem C9_non_error_failure_kept (f : Field) (s : Step) (rest : List Step)
    (v v' : Value) (m : Message) (fs : Bool) (ms : Finset Message)
    (hfoe : f.fail_on_error = false)
    (happ : s.apply v = StepOutcome.ok v' false (some m))
    (hm : m.status = Status.WARNING ∨ m.status = Status.INFO) :
    f.runSteps (s :: rest) v fs ms = f.runSteps rest v' fs (insert m ms) ∧
    (fs = true → v' ≠ Value.none ∨ f.nullable = true →
      (f.finalize (v', fs, insert m ms)).2.1 = true) := by
  constructor
  · rcases hm with h | h <;>
      simp [Field.runSteps, happ, hfoe, h]
  · intro hfs hval
    subst hfs
    rcases hval with h | h
    · simp [Field.finalize, h]
    · simp [Field.finalize, h]

/-- Witness for C9: a WARNING-failing step in a continuing nullable
field; the loop continues and the recorded message keeps its severity. -/
theorem C9_non_error_failure_kept_witness :
    exFieldC.fail_on_error = false ∧
    exWarnStep.apply (Value.str "x") =
      StepOutcome.ok (Value.str "x") false
        (some ⟨Status.WARNING, "suspicious value"⟩) ∧
    exFieldC.runSteps [exWarnStep] (Value.str "x") true ∅ =
      exFieldC.runSteps [] (Value.str "x") true
        (insert (Message.mk Status.WARNING "suspicious value") ∅) ∧
    (exFieldC.finalize
        (Value.str "x", true,
         insert (Message.mk Status.WARNING "suspicious value") ∅)).2.1 = true := by
  refine ⟨rfl, rfl, ?_, ?_⟩
  · exact (C9_non_error_failure_kept exFieldC exWarnStep [] (Value.str "x")
      (Value.str "x") ⟨Status.WARNING, "suspicious value"⟩ true ∅ rfl rfl
      (Or.inl rfl)).1
  · exact (C9_non_error_failure_kept exFieldC exWarnStep [] (Value.str "x")
      (Value.str "x") ⟨Status.WARNING, "suspicious value"⟩ true ∅ rfl rfl
      (Or.inl rfl)).2 rfl (Or.inl (by decide))

/-- C4: a mandatory field given a null input — or a string that trims to
empty, since string inputs are trimmed and an empty result becomes null,
while non-string inputs pass through untrimmed — immediately returns
`(null, false, {ERROR "Null value received in mandatory field"})`.  The
field (and hence its step list) is arbitrary and the result does not
depend on it: zero steps run. -/
theorem C4_mandatory_null_rejected (f : Field) (w : Value)
    (hmand : f.mandatory = true)
    (hw : w = Value.none ∨ ∃ s : String, w = Value.str s ∧ pyStrip s = "") :
    f.ingest w =
      (Value.none, false,
       ({⟨Status.ERROR, "Null value received in mandatory field"⟩} :
         Finset Message)) ∧
    (∀ s : String,
      Field.normalizeInput (Value.str s) =
        (if pyStrip s = "" then Value.none else Value.str (pyStrip s))) ∧
    (∀ n : Int, Field.normalizeInput (Value.int n) = Value.int n) ∧
    Field.normalizeInput Value.none = Value.none := by
  refine ⟨?_, fun s => rfl, fun n => rfl, rfl⟩
  have hnorm : Field.normalizeInput w = Value.none := by
    rcases hw with h | ⟨s, hs, ht⟩
    · subst h; rfl
    · subst hs; simp [Field.normalizeInput, ht]
  simp only [Field.ingest, hnorm, hmand]
  simp

/-- Witness for C4: a mandatory field with a step, fed an all-whitespace
string; the step never runs. -/
theorem C4_mandatory_null_rejected_witness :
    exFieldM.mandatory = true ∧
    pyStrip "   " = "" ∧
    exFieldM.ingest (Value.str "   ") =
      (Value.none, false,
       ({⟨Status.ERROR, "Null value received in mandatory field"⟩} :
         Finset Message)) :=
  ⟨rfl, rfl,
   (C4_mandatory_null_rejected exFieldM (Value.str "   ") rfl
     (Or.inr ⟨"   ", rfl, rfl⟩)).1⟩

/-- C5: for a non-nullable field that was not rejected by the mandatory
check, when the step loop ends with a null value: if the field is not yet
marked failed, `ingest` adds exactly the one extra ERROR message
"Null value in non-nullable field after ingestion" and returns success
`false` with a null value; if the loop already marked the field failed,
the message set is returned with no such extra message. -/
theorem C5_non_nullable_null_after_steps (f : Field) (w : Value) (fs : Bool)
    (ms : Finset Message)
    (hnn : f.nullable = false)
    (hnm : ¬(Field.normalizeInput w = Value.none ∧ f.mandatory = true))
    (hrun : f.runSteps f.steps (Field.normalizeInput w) true ∅ =
      (Value.none, fs, ms)) :
    (fs = true →
      f.ingest w =
        (Value.none, false,
         insert
           ⟨Status.ERROR, "Null value in non-nullable field after ingestion"⟩
           ms)) ∧
    (fs = false → f.ingest w = (Value.none, false, ms)) := by
  constructor
  · intro hfs
    subst hfs
    simp only [Field.ingest]
    rw [if_neg hnm, hrun]
    simp [Field.finalize, hnn]
  · intro hfs
    subst hfs
    simp only [Field.ingest]
    rw [if_neg hnm, hrun]
    exact Field.finalize_failed f Value.none ms

/-- Witness for C5: an optional non-nullable field with no steps, fed a
null input. -/
theorem C5_non_nullable_null_after_steps_witness :
    exFieldNN.nullable = false ∧
    exFieldNN.runSteps exFieldNN.steps (Field.normalizeInput Value.none) true ∅ =
      (Value.none, true, ∅) ∧
    exFieldNN.ingest Value.none =
      (Value.none, false,
       insert
         (Message.mk Status.ERROR "Null value in non-nullable field after ingestion")
         ∅) :=
  ⟨rfl, rfl,
   (C5_non_nullable_null_after_steps exFieldNN Value.none true ∅ rfl
     (by decide) rfl).1 rfl⟩

/-- Key membership after a Python-style dict assignment: the assigned key
is present, and all previously present keys remain. -/
theorem mem_keys_dictSet {κ α : Type} [DecidableEq κ]
    (d : List (κ × α)) (key i : κ) (v : α) :
    i ∈ (dictSet d key v).map Prod.fst ↔ i = key ∨ i ∈ d.map Prod.fst := by
  induction d with
  | nil => simp [dictSet]
  | cons p rest ih =>
      obtain ⟨k, a⟩ := p
      by_cases hk : k = key
      · subst hk
        simp [dictSet]
      · simp [dictSet, hk, ih]
        tauto

/-- Keys of the diagnostics map built by the collection loop: the keys of
the accumulator together with the index of every collected result. -/
theorem foldl_collectStep_keys
    (results : List (Nat × List (String × Value) × Bool × Finset Message))
    (acc : List (List (String × Value)) × List (Nat × Finset Message))
    (i : Nat) :
    i ∈ (results.foldl collectStep acc).2.map Prod.fst ↔
      i ∈ acc.2.map Prod.fst ∨ i ∈ results.map (fun r => r.1) := by
  induction results generalizing acc with
  | nil => simp
  | cons r rest ih =>
      simp only [List.foldl_cons, List.map_cons, List.mem_cons]
      rw [ih]
      have hsnd : (collectStep acc r).2 = dictSet acc.2 r.1 r.2.2.2 := rfl
      rw [hsnd, mem_keys_dictSet]
      tauto

/-- C6 (amended): the diagnostics map returned by `process_chunk` has an
entry for a record index exactly when that index occurs in the processed
chunk — every processed record gets an entry, including records that
produced zero diagnostics, which are mapped to the empty set
(`all_messages[index] = messages` runs unconditionally on line 399). -/
theorem C6_diagnostics_map_keys (sch : Schema)
    (recs : List (Nat × List (String × Value))) (file_name : Option String)
    (c : Nat) (i : Nat)
    (out : List (List (String × Value)) × List (Nat × Finset Message))
    (h : sch.process_chunk recs file_name 1 c = Except.ok out) :
    i ∈ out.2.map Prod.fst ↔ i ∈ recs.map Prod.fst := by
  simp only [Schema.process_chunk, if_pos, Except.ok.injEq] at h
  rw [← h]
  unfold collectResults
  rw [foldl_collectStep_keys]
  simp only [List.map_nil, List.not_mem_nil, false_or, List.map_map]
  have hfst : ((fun r => r.1) ∘ sch.applyToRecord file_name) =
      (Prod.fst : Nat × List (String × Value) → Nat) := rfl
  rw [hfst]

/-- Witness for C6: a one-record chunk whose record produces zero
diagnostics still has its index as a key of the map. -/
theorem C6_diagnostics_map_keys_witness :
    exSchema.process_chunk [(0, [("a", Value.str "x")])] Option.none 1 50 =
      Except.ok ([[("a", Value.str "x")]], [(0, (∅ : Finset Message))]) ∧
    ((0 : Nat) ∈ ([(0, (∅ : Finset Message))].map Prod.fst) ↔
      (0 : Nat) ∈ ([(0, [("a", Value.str "x")])].map Prod.fst)) :=
  ⟨rfl,
   C6_diagnostics_map_keys exSchema [(0, [("a", Value.str "x")])] Option.none
     50 0 ([[("a", Value.str "x")]], [(0, (∅ : Finset Message))]) rfl⟩

/-- Counterexample to C6 as stated: a fully successful record with zero
diagnostics is NOT absent from the map — `process_chunk` returns an entry
`(0, ∅)` for it. -/
theorem C6_entry_for_empty_diagnostics :
    exSchema.process_chunk [(0, [("a", Value.str "x")])] Option.none 1 50 =
      Except.ok ([[("a", Value.str "x")]], [(0, (∅ : Finset Message))]) ∧
    (exSchema.applyToRecord Option.none (0, [("a", Value.str "x")])).2.2.2 =
      (∅ : Finset Message) := ⟨rfl, rfl⟩

/-- Counterexample to C4 as stated: the recorded diagnostic text is
"Null value received in mandatory field" (capital initial, as written on
line 216 of `schema.py`), not "null value received in mandatory field" as
the claim quotes it, so the claimed return triple is not the one
returned. -/
theorem C4_message_text_capitalized :
    exFieldM.ingest Value.none =
      (Value.none, false,
       ({⟨Status.ERROR, "Null value received in mandatory field"⟩} :
         Finset Message)) ∧
    ¬ exFieldM.ingest Value.none =
      (Value.none, false,
       ({⟨Status.ERROR, "null value received in mandatory field"⟩} :
         Finset Message)) := ⟨rfl, by decide⟩

/-- Counterexample to C5 as stated: the extra diagnostic's text is
"Null value in non-nullable field after ingestion" (capital initial, as
written on line 266 of `schema.py`), not the all-lowercase text the claim
quotes. -/
theorem C5_message_text_capitalized :
    exFieldNN.ingest Value.none =
      (Value.none, false,
       ({⟨Status.ERROR, "Null value in non-nullable field after ingestion"⟩} :
         Finset Message)) ∧
    ¬ exFieldNN.ingest Value.none =
      (Value.none, false,
       ({⟨Status.ERROR, "null value in non-nullable field after ingestion"⟩} :
         Finset Message)) := ⟨rfl, by decide⟩

end Stringest
